import Mathlib

/-!
Verification development for the student-data ETL pipeline (`main.py`).

The development is a shallow embedding: the pure field cleaners are
translated to Lean functions on `List Char` / `String`, the change
decision and log lookup are translated to functions over an explicit
log-table value, and the orchestrating `process_file` is translated to a
function over an explicit world state (source object, staging object,
log table) together with an oracle that fixes which external calls fail.

Modelling conventions:
  * Python `None` / `pandas.isna` inputs are modelled by `Option`.
  * Timestamps are modelled by `Int` (datetimes form a linear order and
    the code only compares them and copies them around).
  * Python's whitespace class (used identically by the regex class `\s`
    and by `str.split()` for the ASCII range) is `pyWhitespace`.
  * `float`/`int` in `clean_phone` are modelled with exact decimal
    arithmetic; this coincides with CPython binary floating point on
    every value that is exactly representable, in particular on all the
    concrete inputs appearing in the claims.
-/

namespace GCPPipeline

/-- Whitespace characters recognised by Python's regex class `\s` and by
`str.split()` / `str.strip()` on the ASCII range. -/
def pyWhitespace (c : Char) : Bool :=
  c = ' ' || c = '\t' || c = '\n' || c = '\r' || c = '\x0b' || c = '\x0c'

/-- Characters kept by the whitelist regex in `clean_text`
(`[^a-zA-Z0-9\s,.-]` is removed, so letters, digits, whitespace, comma,
period and hyphen are kept). -/
def allowedChar (c : Char) : Bool :=
  ('a' ≤ c && c ≤ 'z') || ('A' ≤ c && c ≤ 'Z') || ('0' ≤ c && c ≤ '9')
    || pyWhitespace c || c = ',' || c = '.' || c = '-'

/-- The `cleaned.replace('_', ' ')` step of `clean_text`, per character. -/
def underscoreToSpace (c : Char) : Char :=
  if c = '_' then ' ' else c

/-- Python `str.strip()`: drop whitespace from both ends. -/
def stripWs (cs : List Char) : List Char :=
  ((cs.dropWhile pyWhitespace).reverse.dropWhile pyWhitespace).reverse

/-- Accumulating worker for `splitWords`: `acc` holds the reversed
current word. -/
def splitWordsAux : List Char → List Char → List (List Char)
  | [], acc => if acc.isEmpty then [] else [acc.reverse]
  | c :: rest, acc =>
    if pyWhitespace c then
      if acc.isEmpty then splitWordsAux rest []
      else acc.reverse :: splitWordsAux rest []
    else splitWordsAux rest (c :: acc)

/-- Python `str.split()` with no argument: maximal runs of
non-whitespace characters, empty runs discarded. -/
def splitWords (cs : List Char) : List (List Char) :=
  splitWordsAux cs []

/-- Python `' '.join(words)`: interleave a single space between words. -/
def joinWords : List (List Char) → List Char
  | [] => []
  | [w] => w
  | w :: x :: rest => w ++ ' ' :: joinWords (x :: rest)

/-- Literal-NULL test of `clean_text`: `text_str.strip().upper() == "NULL"`. -/
def isNullLiteral (cs : List Char) : Bool :=
  (stripWs cs).map Char.toUpper == ['N', 'U', 'L', 'L']

/-- Core of `clean_text` after the null/empty/"NULL" guards, in the
order of the source: whitelist regex, underscore replacement,
whitespace collapse via split and join, final strip. -/
def cleanTextChars (cs : List Char) : List Char :=
  stripWs (joinWords (splitWords ((cs.filter allowedChar).map underscoreToSpace)))

/-- Function `clean_text` from `main.py`; `none` models `None` / `NaN` input. -/
def clean_text (text : Option String) : String :=
  match text with
  | none => ""
  | some s =>
    if s = "" then ""
    else if isNullLiteral s.data then ""
    else String.mk (cleanTextChars s.data)

/-- ASCII digit test, the regex classes `\d` / `\D` of `clean_phone`. -/
def isDigitChar (c : Char) : Bool :=
  '0' ≤ c && c ≤ '9'

/-- Optional leading sign of a Python float literal; returns
(negative, remainder). -/
def parseSign : List Char → Bool × List Char
  | '+' :: r => (false, r)
  | '-' :: r => (true, r)
  | r => (false, r)

/-- Decimal value of a digit string. -/
def digitsToNat (cs : List Char) : Nat :=
  cs.foldl (fun a c => a * 10 + (c.toNat - 48)) 0

/-- Parse a Python float literal (optional sign, integer digits,
optional fractional digits, optional exponent), returning
(negative, mantissa digit value, decimal exponent): the parsed value is
`±mantissa * 10 ^ exponent`.  Returns `none` on malformed input, where
CPython `float()` raises `ValueError`. -/
def parseFloatChars (cs : List Char) : Option (Bool × Nat × Int) :=
  let cs0 := stripWs cs
  let sr := parseSign cs0
  let neg := sr.1
  let cs1 := sr.2
  let ip := cs1.takeWhile isDigitChar
  let cs2 := cs1.dropWhile isDigitChar
  let fr :=
    match cs2 with
    | '.' :: r => (r.takeWhile isDigitChar, r.dropWhile isDigitChar)
    | r => (([] : List Char), r)
  let fp := fr.1
  let cs3 := fr.2
  if ip.isEmpty && fp.isEmpty then none
  else
    match cs3 with
    | [] => some (neg, digitsToNat (ip ++ fp), -(fp.length : Int))
    | e :: r =>
      if e = 'e' || e = 'E' then
        let er := parseSign r
        let ed := er.2.takeWhile isDigitChar
        let r2 := er.2.dropWhile isDigitChar
        if ed.isEmpty || !r2.isEmpty then none
        else
          let ev : Int := (digitsToNat ed : Int)
          some (neg, digitsToNat (ip ++ fp),
            (if er.1 then -ev else ev) - (fp.length : Int))
      else none

/-- The value `2 ^ 1024`, the smallest magnitude at which `float()`
overflows to infinity, written as a literal so concrete evaluation
stays cheap. -/
def floatOverflowBound : Nat :=
  179769313486231590772930519078902473361797697894230657273430081157732675805500963132708477322407536021120113879871393357658789768814416622492847430639474124377767893424865485276302219601246094119453082952085005768838150682342462881473913110540827237163350510684586298239947245938479716304835356329624224137216

/-- Overflow test for `float()`: the parsed magnitude reaches
`2 ^ 1024`, where CPython yields `inf` and the subsequent `int()`
raises. -/
def sciOverflow (m : Nat) (e : Int) : Bool :=
  if 0 ≤ e then decide (floatOverflowBound ≤ m * 10 ^ e.toNat)
  else decide (floatOverflowBound * 10 ^ (-e).toNat ≤ m)

/-- Decimal rendering of an integer, as Python `str(int)`. -/
def intToChars (n : Int) : List Char :=
  (toString n).data

/-- Model of `str(int(float(s)))` in `clean_phone`: parse as a decimal
number, truncate toward zero, render in decimal; `none` where CPython
would raise (malformed literal or float overflow). -/
def pyFloatIntChars (cs : List Char) : Option (List Char) :=
  match parseFloatChars cs with
  | none => none
  | some (neg, m, e) =>
    if sciOverflow m e then none
    else
      let a : Nat := if 0 ≤ e then m * 10 ^ e.toNat else m / 10 ^ (-e).toNat
      let v : Int := if neg then -(a : Int) else (a : Int)
      some (intToChars v)

/-- Core of `clean_phone`: scientific-notation reinterpretation when the
text contains an exponent marker (falling back to the original text when
the parse fails), digit extraction, last ten digits. -/
def cleanPhoneChars (cs : List Char) : List Char :=
  let s1 :=
    if cs.contains 'E' || cs.contains 'e' then
      match pyFloatIntChars cs with
      | some t => t
      | none => cs
    else cs
  let digits := s1.filter isDigitChar
  if digits.length ≥ 10 then digits.drop (digits.length - 10) else digits

/-- Function `clean_phone` from `main.py`; `none` models `None` / `NaN` input. -/
def clean_phone (phone : Option String) : String :=
  match phone with
  | none => ""
  | some s => String.mk (cleanPhoneChars s.data)

/-! ## Metadata, log lookup and change decision -/

/-- The source object's attributes carried by the object store
(`blob.updated`, `blob.size`) plus the number of data rows its tabular
content parses to (`len(df)` / `load_job.output_rows`). -/
structure SourceMeta where
  last_modified : Int
  size : Nat
  rows : Nat
deriving DecidableEq

/-- Result of `get_file_metadata`. -/
structure FileMetadata where
  name : String
  last_modified : Int
  size : Nat
  full_path : String
deriving DecidableEq

/-- One row of the `file_load_log` table, with the columns the pipeline
reads back or branches on (the lookup query selects only `file_path`,
`last_modified_timestamp` and `load_status`, ordering by `created_at`;
the audit-only columns `log_id`, `staging_file_path`,
`archive_file_path` and `processed_by` are never read back and are
omitted from the model). -/
structure LogRow where
  file_name : String
  file_path : String
  last_modified_timestamp : Int
  file_size_bytes : Nat
  rows_processed : Nat
  load_status : String
  error_message : Option String
  created_at : Int
deriving DecidableEq

/-- Result shape of `check_file_in_log`. -/
inductive LogLookup where
  | not_found
  | found (last_modified_timestamp : Int) (load_status : String)
deriving DecidableEq

/-- Later-`created_at` row wins; on a tie the earlier-listed row is
kept (the SQL `ORDER BY created_at DESC LIMIT 1` leaves ties
unspecified). -/
def pickLater (a b : LogRow) : LogRow :=
  if b.created_at > a.created_at then b else a

/-- Row with the maximal `created_at` in a list, the model of
`ORDER BY created_at DESC LIMIT 1`. -/
def mostRecentRow : List LogRow → Option LogRow
  | [] => none
  | r :: rs =>
    match mostRecentRow rs with
    | none => some r
    | some b => some (pickLater r b)

/-- Function `check_file_in_log` from `main.py`: the most recent log row whose
`file_path` matches, by `created_at`, with no condition on
`load_status`. -/
def check_file_in_log (log : List LogRow) (file_path : String) : LogLookup :=
  match mostRecentRow (log.filter (fun r => r.file_path = file_path)) with
  | none => .not_found
  | some r => .found r.last_modified_timestamp r.load_status

/-- Function `should_process_file` from `main.py`. -/
def should_process_file (md : FileMetadata) (log_entry : LogLookup) : Bool × String :=
  match log_entry with
  | .not_found => (true, "FIRST_LOAD")
  | .found t _ =>
    if md.last_modified > t then (true, "FILE_MODIFIED") else (false, "NOT_MODIFIED")

/-! ## Pipeline state machine -/

/-- The `gs://bucket/name` path format used both by `get_file_metadata`
and by the failure log entry. -/
def gsPath (bucket file_name : String) : String :=
  "gs://" ++ bucket ++ "/" ++ file_name

/-- Python `file_name.split('/')[-1]`, the basename stored in log rows and in
archive paths. -/
def lastComponent (s : String) : String :=
  String.mk ((s.data.reverse.takeWhile (fun c => c ≠ '/')).reverse)

/-- Metadata assembled by `get_file_metadata` for a present object. -/
def mkMetadata (bucket file_name : String) (src : SourceMeta) : FileMetadata :=
  { name := file_name
    last_modified := src.last_modified
    size := src.size
    full_path := gsPath bucket file_name }

/-- Function `get_file_metadata`: `none` models the `NotFound` exception raised
by `blob.reload()` when the object is absent. -/
def get_file_metadata (w_source : Option SourceMeta) (bucket file_name : String) :
    Option FileMetadata :=
  w_source.map (mkMetadata bucket file_name)

/-- The world state one invocation acts on: the source object for the
given bucket and path, the staging object, a count of archived copies,
and the append-only log table. -/
structure World where
  source : Option SourceMeta
  stagingPresent : Bool
  archivedCount : Nat
  log : List LogRow
deriving DecidableEq

/-- Failure oracle for the external calls of one invocation: a flag per
fallible remote operation, `true` meaning that call raises.
`insertLogFails` covers the `insert_file_log` call of the skip path and
of the success path (the same function); `failureLogFails` covers the
best-effort `insert_file_log` call inside the exception handler. -/
structure Oracle where
  readFails : Bool
  stageFails : Bool
  loadFails : Bool
  archiveFails : Bool
  deleteSourceFails : Bool
  deleteStagingFails : Bool
  insertLogFails : Bool
  failureLogFails : Bool
deriving DecidableEq

/-- The distinct exceptions the pipeline can raise, one per fallible
step (`notFound` from `get_file_metadata`, `unsupportedFormat` from the
extension dispatch of `read_file_from_gcs`, the rest from the
corresponding remote calls). -/
inductive PipelineError where
  | notFound
  | unsupportedFormat
  | readError
  | stageError
  | loadError
  | archiveError
  | deleteSourceError
  | deleteStagingError
  | insertLogError
deriving DecidableEq

/-- Error message text recorded in the failure log row. -/
def errMsg : PipelineError → String
  | .notFound => "not found"
  | .unsupportedFormat => "Unsupported file type"
  | .readError => "read failed"
  | .stageError => "staging write failed"
  | .loadError => "load failed"
  | .archiveError => "archive copy failed"
  | .deleteSourceError => "source delete failed"
  | .deleteStagingError => "staging delete failed"
  | .insertLogError => "Failed to insert log"

/-- Observable outcome of one `process_file` invocation. -/
inductive Outcome where
  | success (rows : Nat)
  | skipped
  | raised (e : PipelineError)
deriving DecidableEq

/-- Result of one invocation: the outcome, the final world, the number
of FAILED log writes attempted by the exception handler, and whether
the processing (TRUE) path was entered. -/
structure RunResult where
  outcome : Outcome
  world : World
  failedLogAttempts : Nat
  tookProcessingPath : Bool
deriving DecidableEq

/-- The FAILED log row written by the exception handler of
`process_file`: note that `last_modified_timestamp` is the wall clock
`datetime.now()` of the failing run, not the source object's
last-modified time. -/
def failedRow (bucket file_name : String) (now : Int) (e : PipelineError) : LogRow :=
  { file_name := lastComponent file_name
    file_path := gsPath bucket file_name
    last_modified_timestamp := now
    file_size_bytes := 0
    rows_processed := 0
    load_status := "FAILED"
    error_message := some (errMsg e)
    created_at := now }

/-- The exception handler of `process_file`: one best-effort
`insert_file_log` of a FAILED row (appended only when that secondary
write does not itself fail, whose failure is swallowed), then the
original exception is re-raised. -/
def failRun (w : World) (o : Oracle) (bucket file_name : String) (now : Int)
    (tp : Bool) (e : PipelineError) : RunResult :=
  { outcome := .raised e
    world :=
      if o.failureLogFails then w
      else { w with log := w.log ++ [failedRow bucket file_name now e] }
    failedLogAttempts := 1
    tookProcessingPath := tp }

/-- SKIPPED log row of the FALSE path. -/
def skippedRow (md : FileMetadata) (now : Int) (reason : String) : LogRow :=
  { file_name := lastComponent md.name
    file_path := md.full_path
    last_modified_timestamp := md.last_modified
    file_size_bytes := md.size
    rows_processed := 0
    load_status := "SKIPPED"
    error_message := some ("Skipped: " ++ reason)
    created_at := now }

/-- SUCCESS log row of the TRUE path. -/
def successRow (md : FileMetadata) (now : Int) (rows : Nat) : LogRow :=
  { file_name := lastComponent md.name
    file_path := md.full_path
    last_modified_timestamp := md.last_modified
    file_size_bytes := md.size
    rows_processed := rows
    load_status := "SUCCESS"
    error_message := none
    created_at := now }

/-- Python `s.startswith(p)`. -/
def strStartsWith (s p : String) : Bool :=
  s.data.take p.data.length == p.data

/-- Python `s.endswith(suf)`. -/
def listEndsWith (l suf : List Char) : Bool :=
  l.reverse.take suf.length == suf.reverse

/-- Extension dispatch of `read_file_from_gcs` (case sensitive, as in
the source). -/
def read_supported (file_name : String) : Bool :=
  listEndsWith file_name.data (".xlsx").data
    || listEndsWith file_name.data (".xls").data
    || listEndsWith file_name.data (".csv").data

/-- The TRUE (processing) path of `process_file`, steps 4 to 10: read,
clean, stage, load, archive, delete source, delete staging, success
log.  Cleaning itself is the pure per-field work of the cleaners and
cannot raise; `o.readFails` models a download or parse failure. -/
def run_processing (w : World) (o : Oracle) (bucket file_name : String) (now : Int)
    (src : SourceMeta) (md : FileMetadata) : RunResult :=
  if o.readFails then failRun w o bucket file_name now true .readError
  else if !read_supported file_name then
    failRun w o bucket file_name now true .unsupportedFormat
  else if o.stageFails then failRun w o bucket file_name now true .stageError
  else if o.loadFails then
    failRun { w with stagingPresent := true } o bucket file_name now true .loadError
  else if o.archiveFails then
    failRun { w with stagingPresent := true } o bucket file_name now true .archiveError
  else if o.deleteSourceFails then
    failRun { w with stagingPresent := true, archivedCount := w.archivedCount + 1 }
      o bucket file_name now true .deleteSourceError
  else if o.deleteStagingFails then
    failRun
      { w with
        stagingPresent := true
        archivedCount := w.archivedCount + 1
        source := none }
      o bucket file_name now true .deleteStagingError
  else if o.insertLogFails then
    failRun
      { w with
        stagingPresent := false
        archivedCount := w.archivedCount + 1
        source := none }
      o bucket file_name now true .insertLogError
  else
    { outcome := .success src.rows
      world :=
        { w with
          stagingPresent := false
          archivedCount := w.archivedCount + 1
          source := none
          log := w.log ++ [successRow md now src.rows] }
      failedLogAttempts := 0
      tookProcessingPath := true }

/-- Function `process_file` from `main.py`: metadata, log lookup, change
decision, then the FALSE (skip) path or the TRUE (processing) path,
with the whole body wrapped in the exception handler modelled by
`failRun`.  `now` is the invocation's wall clock, used by the failure
log row and as the server-assigned `created_at` of appended rows. -/
def process_file (w : World) (o : Oracle) (bucket file_name : String) (now : Int) :
    RunResult :=
  match w.source with
  | none => failRun w o bucket file_name now false .notFound
  | some src =>
    let md := mkMetadata bucket file_name src
    let log_entry := check_file_in_log w.log md.full_path
    let d := should_process_file md log_entry
    if d.1 = false then
      if o.insertLogFails then failRun w o bucket file_name now false .insertLogError
      else
        { outcome := .skipped
          world := { w with log := w.log ++ [skippedRow md now d.2] }
          failedLogAttempts := 0
          tookProcessingPath := false }
    else run_processing w o bucket file_name now src md

/-! ## Archive path construction -/

/-- The wall-clock reading `datetime.now()` used by `copy_to_archive`,
with the fields `strftime` renders plus the sub-second field it
discards. -/
structure PyDateTime where
  year : Nat
  month : Nat
  day : Nat
  hour : Nat
  minute : Nat
  second : Nat
  microsecond : Nat
deriving DecidableEq

/-- Zero-padded two-digit rendering, `%m`/`%d`/`%H`/`%M`/`%S` for
in-range fields. -/
def pad2 (n : Nat) : List Char :=
  [Char.ofNat (48 + n / 10 % 10), Char.ofNat (48 + n % 10)]

/-- Zero-padded four-digit rendering, `%Y` for four-digit years. -/
def pad4 (n : Nat) : List Char :=
  [Char.ofNat (48 + n / 1000 % 10), Char.ofNat (48 + n / 100 % 10),
    Char.ofNat (48 + n / 10 % 10), Char.ofNat (48 + n % 10)]

/-- Python `datetime.now().strftime('%Y%m%d_%H%M%S')`: second resolution, the
microsecond field is discarded. -/
def strftimeYmdHMS (t : PyDateTime) : List Char :=
  pad4 t.year ++ pad2 t.month ++ pad2 t.day
    ++ '_' :: (pad2 t.hour ++ pad2 t.minute ++ pad2 t.second)

/-- The archive object path built by `copy_to_archive`:
`archived/<timestamp>_<original-basename>`. -/
def archive_file_path (now : PyDateTime) (source_file : String) : String :=
  String.mk (("archived/").data ++ strftimeYmdHMS now
    ++ '_' :: (lastComponent source_file).data)

/-- Function `copy_to_archive` from `main.py`, as the archive URI it returns
(the copy itself is an object-store effect). -/
def copy_to_archive (now : PyDateTime) (source_file archive_bucket : String) : String :=
  "gs://" ++ archive_bucket ++ "/" ++ archive_file_path now source_file

/-! ## Event trigger adapter -/

/-- Extensions accepted by `gcs_trigger`. -/
def supported_extensions : List String :=
  [".xlsx", ".xls", ".csv"]

/-- Python `file_name.lower()` (ASCII lowering, which is all the
extension comparison exercises). -/
def lowerData (s : String) : List Char :=
  s.data.map Char.toLower

/-- Function `gcs_trigger` from `main.py`, as the pipeline invocation it makes:
`none` is the no-op return, `some (file_name, bucket)` is the single
`process_file(file_name, bucket_name)` call. -/
def gcs_trigger (file_name bucket_name : String) : Option (String × String) :=
  if !(strStartsWith file_name "incoming/") then none
  else if !(supported_extensions.any
      (fun ext => listEndsWith (lowerData file_name) ext.data)) then
    none
  else some (file_name, bucket_name)

/-! ## Specification-side predicates and claim-support definitions -/

/-- The output alphabet the specification promises for `clean_text`:
ASCII letters, digits, space, comma, period, hyphen. -/
def cleanOutChar (c : Char) : Bool :=
  ('a' ≤ c && c ≤ 'z') || ('A' ≤ c && c ≤ 'Z') || ('0' ≤ c && c ≤ '9')
    || c = ' ' || c = ',' || c = '.' || c = '-'

/-- No two consecutive whitespace characters. -/
def noDoubleWs : List Char → Bool
  | [] => true
  | [_] => true
  | a :: b :: r => !(pyWhitespace a && pyWhitespace b) && noDoubleWs (b :: r)

/-- The optional boundary character (head or last) is not whitespace. -/
def noWsOpt : Option Char → Bool
  | none => true
  | some c => !pyWhitespace c

/-- Last ten characters of a list, or all of them when fewer exist, the
specification's description of the digit suffix kept by `clean_phone`. -/
def lastTen (cs : List Char) : List Char :=
  cs.drop (cs.length - 10)

/-- Whether a lookup result reports an existing entry. -/
def LogLookup.found? : LogLookup → Bool
  | .not_found => false
  | .found _ _ => true

/-- The timestamp a lookup result carries, if any. -/
def LogLookup.ts? : LogLookup → Option Int
  | .not_found => none
  | .found t _ => some t

/-- Rewrite every row's `load_status` through `f`, leaving every other
column unchanged; used to state that the lookup and the change decision
are oblivious to statuses. -/
def setStatus (f : String → String) (r : LogRow) : LogRow :=
  { r with load_status := f r.load_status }

/-- The specification's reprocessing trigger for a file path: no log
entry for the path, or a source last-modified timestamp strictly newer
than the one in the most recent entry. -/
def reprocess_trigger (log : List LogRow) (md : FileMetadata) : Bool :=
  match mostRecentRow (log.filter (fun r => r.file_path = md.full_path)) with
  | none => true
  | some r => decide (md.last_modified > r.last_modified_timestamp)

/-- Flip only the best-effort failure-log flag of an oracle. -/
def setFailureLog (o : Oracle) (b : Bool) : Oracle :=
  { o with failureLogFails := b }

/-- A fresh world: source object present (modified at time 100, 5
bytes, 3 data rows), no staging object, empty log. -/
def pipelineWorld0 : World :=
  { source := some { last_modified := 100, size := 5, rows := 3 }
    stagingPresent := false
    archivedCount := 0
    log := [] }

/-- Oracle under which every external call succeeds. -/
def oracleAllOk : Oracle :=
  { readFails := false, stageFails := false, loadFails := false
    archiveFails := false, deleteSourceFails := false
    deleteStagingFails := false, insertLogFails := false
    failureLogFails := false }

/-- Oracle with a warehouse bulk-load failure. -/
def oracleLoadFail : Oracle :=
  { oracleAllOk with loadFails := true }

/-- Oracle with a failure of the staging-cleanup delete. -/
def oracleStagingDeleteFail : Oracle :=
  { oracleAllOk with deleteStagingFails := true }

/-! ## Theorems -/

/-- The source's `digits[-10:] if len(digits) >= 10 else digits` equals
the specification's last-ten-or-all description. -/
theorem keepLastTen_eq (ds : List Char) :
    (if ds.length ≥ 10 then ds.drop (ds.length - 10) else ds) = lastTen ds := by
  unfold lastTen
  split
  · rfl
  · have h : ds.length - 10 = 0 := by omega
    rw [h, List.drop_zero]

/-- C4: evaluation of `clean_text` at the claim's inputs.  The first
two equalities hold as claimed, but `clean_text("O'Brien_Smith!!")`
returns `"OBrienSmith"`: the whitelist regex removes underscores before
the underscore-to-space replacement runs, so no space appears, refuting
the claimed `"OBrien Smith"`. -/
theorem c4_clean_text_eval :
    clean_text (some "NULL ") = "" ∧
    clean_text none = "" ∧
    clean_text (some "O\x27Brien_Smith!!") = "OBrienSmith" ∧
    clean_text (some "O\x27Brien_Smith!!") ≠ "OBrien Smith" := by
  exact ⟨by decide, rfl, by decide, by decide⟩

/-- C6: `clean_phone` returns the empty string on null input; without
an exponent marker it keeps the last ten (or all, when fewer) digit
characters of the text; with an exponent marker it first reinterprets
the value as a plain integer string (falling back to the original text
when the parse fails); and the three claimed evaluations hold. -/
theorem c6_clean_phone :
    clean_phone none = "" ∧
    (∀ s : String, (s.data.contains 'E' || s.data.contains 'e') = false →
      clean_phone (some s) = String.mk (lastTen (s.data.filter isDigitChar))) ∧
    (∀ (s : String) (t : List Char),
      (s.data.contains 'E' || s.data.contains 'e') = true →
      pyFloatIntChars s.data = some t →
      clean_phone (some s) = String.mk (lastTen (t.filter isDigitChar))) ∧
    (∀ s : String, (s.data.contains 'E' || s.data.contains 'e') = true →
      pyFloatIntChars s.data = none →
      clean_phone (some s) = String.mk (lastTen (s.data.filter isDigitChar))) ∧
    clean_phone (some "9.87654321E9") = "9876543210" ∧
    clean_phone (some "(987) 654-3210") = "9876543210" ∧
    clean_phone (some "123") = "123" := by
  refine ⟨rfl, ?_, ?_, ?_, by decide, by decide, by decide⟩
  · intro s h
    have h' : ¬('E' ∈ s.data ∨ 'e' ∈ s.data) := by simpa using h
    simp [clean_phone, cleanPhoneChars, h', keepLastTen_eq]
  · intro s t h ht
    have h' : 'E' ∈ s.data ∨ 'e' ∈ s.data := by simpa using h
    simp [clean_phone, cleanPhoneChars, h', ht, keepLastTen_eq]
  · intro s h ht
    have h' : 'E' ∈ s.data ∨ 'e' ∈ s.data := by simpa using h
    simp [clean_phone, cleanPhoneChars, h', ht, keepLastTen_eq]

/-- Witness for `c6_clean_phone`: the hypothesis-bearing clauses at
concrete inputs. -/
theorem c6_clean_phone_witness :
    clean_phone (some "(987) 654-3210") =
      String.mk (lastTen (("(987) 654-3210").data.filter isDigitChar)) ∧
    clean_phone (some "HELLO") =
      String.mk (lastTen (("HELLO").data.filter isDigitChar)) ∧
    clean_phone (some "1.5e1") = String.mk (lastTen (("15").data.filter isDigitChar)) :=
  ⟨c6_clean_phone.2.1 "(987) 654-3210" (by decide),
   c6_clean_phone.2.2.2.1 "HELLO" (by decide) (by decide),
   c6_clean_phone.2.2.1 "1.5e1" ("15").data (by decide) (by decide)⟩

/-- C7: the change decision returns `(true, FIRST_LOAD)` when no log
entry exists, `(true, FILE_MODIFIED)` when the source's modification
time is strictly newer than the logged one, and `(false, NOT_MODIFIED)`
otherwise, an equal timestamp counting as not modified. -/
theorem c7_should_process_file_cases :
    (∀ md : FileMetadata, should_process_file md .not_found = (true, "FIRST_LOAD")) ∧
    (∀ (md : FileMetadata) (t : Int) (s : String), t < md.last_modified →
      should_process_file md (.found t s) = (true, "FILE_MODIFIED")) ∧
    (∀ (md : FileMetadata) (t : Int) (s : String), md.last_modified ≤ t →
      should_process_file md (.found t s) = (false, "NOT_MODIFIED")) := by
  refine ⟨fun md => rfl, fun md t s h => ?_, fun md t s h => ?_⟩
  · have h' : md.last_modified > t := h
    simp only [should_process_file]
    rw [if_pos h']
  · have h' : ¬md.last_modified > t := by omega
    simp only [should_process_file]
    rw [if_neg h']

/-- Witness for `c7_should_process_file_cases`, including the
equal-timestamp tie. -/
theorem c7_witness :
    should_process_file ⟨"f.csv", 5, 1, "gs://b/f.csv"⟩ .not_found = (true, "FIRST_LOAD") ∧
    should_process_file ⟨"f.csv", 5, 1, "gs://b/f.csv"⟩ (.found 4 "SUCCESS") =
      (true, "FILE_MODIFIED") ∧
    should_process_file ⟨"f.csv", 5, 1, "gs://b/f.csv"⟩ (.found 5 "SUCCESS") =
      (false, "NOT_MODIFIED") :=
  ⟨c7_should_process_file_cases.1 _,
   c7_should_process_file_cases.2.1 _ 4 "SUCCESS" (by decide),
   c7_should_process_file_cases.2.2 _ 5 "SUCCESS" (by decide)⟩

/-- C9: the event adapter invokes the pipeline exactly for objects
under the `incoming/` prefix with a supported extension
(case-insensitively), with the event's own name and bucket; every other
object, a `.txt` in particular, is a no-op. -/
theorem c9_gcs_trigger_filter :
    (∀ file_name bucket_name : String,
      (gcs_trigger file_name bucket_name).isSome =
        (strStartsWith file_name "incoming/" &&
          supported_extensions.any
            (fun ext => listEndsWith (lowerData file_name) ext.data))) ∧
    (∀ (file_name bucket_name : String) (p : String × String),
      gcs_trigger file_name bucket_name = some p → p = (file_name, bucket_name)) ∧
    gcs_trigger "incoming/students.txt" "bkt" = none ∧
    gcs_trigger "students.csv" "bkt" = none ∧
    gcs_trigger "incoming/students.csv" "bkt" = some ("incoming/students.csv", "bkt") ∧
    gcs_trigger "incoming/Students.XLSX" "bkt" = some ("incoming/Students.XLSX", "bkt") := by
  refine ⟨?_, ?_, by decide, by decide, by decide, by decide⟩
  · intro fn b
    unfold gcs_trigger
    cases h1 : strStartsWith fn "incoming/" <;>
      cases h2 : supported_extensions.any
        (fun ext => listEndsWith (lowerData fn) ext.data) <;>
      simp [h1, h2]
  · intro fn b p h
    unfold gcs_trigger at h
    split_ifs at h
    exact (Option.some.inj h).symm

/-- Witness for `c9_gcs_trigger_filter`: the invocation clause at a
concrete event. -/
theorem c9_witness :
    (("incoming/students.csv", "bkt") : String × String) = ("incoming/students.csv", "bkt") :=
  c9_gcs_trigger_filter.2.1 "incoming/students.csv" "bkt"
    ("incoming/students.csv", "bkt") (by decide)

/-- The formatted archive timestamp always renders to fifteen
characters. -/
theorem strftimeYmdHMS_length (t : PyDateTime) : (strftimeYmdHMS t).length = 15 := by
  simp [strftimeYmdHMS, pad4, pad2]

/-- C8 counterexample: two distinct run instants — the clock readings
differ, here by less than a second — produce the identical archive
path for the same original filename, because the embedded timestamp
only has second resolution.  This refutes uniqueness across repeated
runs. -/
theorem c8_counterexample :
    (⟨2025, 10, 12, 9, 30, 0, 0⟩ : PyDateTime) ≠ ⟨2025, 10, 12, 9, 30, 0, 999999⟩ ∧
    copy_to_archive ⟨2025, 10, 12, 9, 30, 0, 0⟩ "incoming/students.csv" "arch" =
      copy_to_archive ⟨2025, 10, 12, 9, 30, 0, 999999⟩ "incoming/students.csv" "arch" :=
  ⟨by decide, rfl⟩

/-- C8 amended: the archive path has the form
`archived/<timestamp>_<original-basename>`, and two archive paths are
distinct whenever the runs' second-resolution formatted timestamps
differ; uniqueness holds only at that granularity (runs within the
same clock second collide, see `c8_counterexample`). -/
theorem c8_archive_path_form_and_uniqueness :
    (∀ (t : PyDateTime) (f : String),
      archive_file_path t f =
        String.mk (("archived/").data ++ strftimeYmdHMS t
          ++ '_' :: (lastComponent f).data)) ∧
    (∀ (t₁ t₂ : PyDateTime) (f₁ f₂ : String),
      strftimeYmdHMS t₁ ≠ strftimeYmdHMS t₂ →
      archive_file_path t₁ f₁ ≠ archive_file_path t₂ f₂) := by
  refine ⟨fun t f => rfl, ?_⟩
  intro t₁ t₂ f₁ f₂ hne heq
  apply hne
  unfold archive_file_path at heq
  have hdata : ("archived/").data ++ strftimeYmdHMS t₁ ++ '_' :: (lastComponent f₁).data =
      ("archived/").data ++ strftimeYmdHMS t₂ ++ '_' :: (lastComponent f₂).data :=
    congrArg String.data heq
  rw [List.append_assoc, List.append_assoc] at hdata
  have hmid := List.append_cancel_left hdata
  exact (List.append_inj hmid
    (by rw [strftimeYmdHMS_length, strftimeYmdHMS_length])).1

/-- Witness for `c8_archive_path_form_and_uniqueness`: two runs one
second apart give distinct archive paths. -/
theorem c8_witness :
    archive_file_path ⟨2025, 1, 1, 0, 0, 0, 0⟩ "incoming/a.csv" ≠
      archive_file_path ⟨2025, 1, 1, 0, 0, 1, 0⟩ "incoming/a.csv" :=
  c8_archive_path_form_and_uniqueness.2 _ _ _ _ (by decide)

/-- Rewriting statuses touches no column the created-at ordering reads. -/
theorem setStatus_created_at (f : String → String) (r : LogRow) :
    (setStatus f r).created_at = r.created_at := rfl

/-- Rewriting statuses leaves the path column unchanged. -/
theorem setStatus_file_path (f : String → String) (r : LogRow) :
    (setStatus f r).file_path = r.file_path := rfl

/-- Filtering by path commutes with rewriting statuses. -/
theorem filter_map_setStatus (f : String → String) (log : List LogRow) (p : String) :
    (log.map (setStatus f)).filter (fun r => r.file_path = p) =
      (log.filter (fun r => r.file_path = p)).map (setStatus f) := by
  induction log with
  | nil => rfl
  | cons r rs ih =>
    simp only [List.map_cons, List.filter_cons, setStatus_file_path]
    by_cases h : r.file_path = p
    · simp [h, ih]
    · simp [h, ih]

/-- The most-recent-row selection commutes with rewriting statuses,
because it compares only `created_at`. -/
theorem mostRecentRow_map (f : String → String) :
    ∀ rs : List LogRow,
      mostRecentRow (rs.map (setStatus f)) = (mostRecentRow rs).map (setStatus f) := by
  intro rs
  induction rs with
  | nil => rfl
  | cons r rs ih =>
    simp only [List.map_cons, mostRecentRow, ih]
    cases hb : mostRecentRow rs with
    | none => rfl
    | some b =>
      simp only [Option.map, pickLater, setStatus_created_at]
      rw [apply_ite (setStatus f)]

/-- The lookup on a status-rewritten log differs from the original
lookup only in the reported status. -/
theorem check_map_setStatus (f : String → String) (log : List LogRow) (path : String) :
    check_file_in_log (log.map (setStatus f)) path =
      (match check_file_in_log log path with
        | .not_found => .not_found
        | .found t s => .found t (f s)) := by
  unfold check_file_in_log
  rw [filter_map_setStatus, mostRecentRow_map]
  cases mostRecentRow (log.filter (fun r => r.file_path = path)) <;> simp [setStatus]

/-- C10: the lookup backing the change decision is blind to
`load_status` — rewriting every row's status changes neither whether an
entry is found nor the timestamp returned — and the decision treats a
found entry identically whatever its status, in particular skipping
whenever the recorded timestamp is not strictly older than the
source's. -/
theorem c10_lookup_status_blind :
    (∀ (f : String → String) (log : List LogRow) (path : String),
      (check_file_in_log (log.map (setStatus f)) path).found? =
        (check_file_in_log log path).found?) ∧
    (∀ (f : String → String) (log : List LogRow) (path : String),
      (check_file_in_log (log.map (setStatus f)) path).ts? =
        (check_file_in_log log path).ts?) ∧
    (∀ (md : FileMetadata) (t : Int) (s₁ s₂ : String),
      should_process_file md (.found t s₁) = should_process_file md (.found t s₂)) ∧
    (∀ (md : FileMetadata) (t : Int) (s : String), md.last_modified ≤ t →
      should_process_file md (.found t s) = (false, "NOT_MODIFIED")) := by
  refine ⟨?_, ?_, fun md t s₁ s₂ => rfl, fun md t s h => ?_⟩
  · intro f log path
    rw [check_map_setStatus]
    cases check_file_in_log log path <;> rfl
  · intro f log path
    rw [check_map_setStatus]
    cases check_file_in_log log path <;> rfl
  · have h' : ¬md.last_modified > t := by omega
    simp only [should_process_file]
    rw [if_neg h']

/-- Witness for `c10_lookup_status_blind`: a most-recent FAILED entry
with a timestamp not older than the source's makes the decision skip,
exactly as a SUCCESS entry would. -/
theorem c10_witness :
    should_process_file ⟨"f.csv", 5, 1, "gs://b/f.csv"⟩ (.found 7 "FAILED") =
      (false, "NOT_MODIFIED") :=
  c10_lookup_status_blind.2.2.2 _ 7 "FAILED" (by decide)

/-- The boolean component of the code's change decision coincides with
the specification's reprocessing trigger. -/
theorem should_process_fst_eq_trigger (log : List LogRow) (md : FileMetadata) :
    (should_process_file md (check_file_in_log log md.full_path)).1 =
      reprocess_trigger log md := by
  unfold check_file_in_log reprocess_trigger should_process_file
  cases mostRecentRow (log.filter (fun r => r.file_path = md.full_path)) with
  | none => rfl
  | some r =>
    by_cases h : md.last_modified > r.last_modified_timestamp
    · simp [h]
    · simp [h]

/-- The exception handler re-raises the original error. -/
theorem failRun_outcome (w : World) (o : Oracle) (b f : String) (n : Int)
    (tp : Bool) (e : PipelineError) : (failRun w o b f n tp e).outcome = .raised e := rfl

/-- The exception handler attempts exactly one FAILED log write. -/
theorem failRun_attempts (w : World) (o : Oracle) (b f : String) (n : Int)
    (tp : Bool) (e : PipelineError) : (failRun w o b f n tp e).failedLogAttempts = 1 := rfl

/-- The exception handler preserves the path flag it is given. -/
theorem failRun_tp (w : World) (o : Oracle) (b f : String) (n : Int)
    (tp : Bool) (e : PipelineError) : (failRun w o b f n tp e).tookProcessingPath = tp := rfl

/-- The log after the exception handler: one FAILED row appended when
the best-effort write succeeds, the log untouched when it fails. -/
theorem failRun_world_log (w : World) (o : Oracle) (b f : String) (n : Int)
    (tp : Bool) (e : PipelineError) :
    (failRun w o b f n tp e).world.log =
      (if o.failureLogFails then w.log else w.log ++ [failedRow b f n e]) := by
  unfold failRun
  cases o.failureLogFails <;> rfl

/-- Characterisation of the TRUE path: it either ends in the exception
handler — applied to a world whose log is still the input log — or
succeeds with no failure-log attempt. -/
theorem run_processing_char (w : World) (o : Oracle) (b f : String) (n : Int)
    (src : SourceMeta) (md : FileMetadata) :
    (∃ (w' : World) (e : PipelineError), w'.log = w.log ∧
      run_processing w o b f n src md = failRun w' o b f n true e) ∨
    (run_processing w o b f n src md =
      { outcome := .success src.rows
        world :=
          { w with
            stagingPresent := false
            archivedCount := w.archivedCount + 1
            source := none
            log := w.log ++ [successRow md n src.rows] }
        failedLogAttempts := 0
        tookProcessingPath := true }) := by
  unfold run_processing
  split_ifs with h1 h2 h3 h4 h5 h6 h7 h8
  · exact Or.inl ⟨w, .readError, rfl, rfl⟩
  · exact Or.inl ⟨w, .unsupportedFormat, rfl, rfl⟩
  · exact Or.inl ⟨w, .stageError, rfl, rfl⟩
  · exact Or.inl ⟨{ w with stagingPresent := true }, .loadError, rfl, rfl⟩
  · exact Or.inl ⟨{ w with stagingPresent := true }, .archiveError, rfl, rfl⟩
  · exact Or.inl
      ⟨{ w with stagingPresent := true, archivedCount := w.archivedCount + 1 },
        .deleteSourceError, rfl, rfl⟩
  · exact Or.inl
      ⟨{ w with
          stagingPresent := true
          archivedCount := w.archivedCount + 1
          source := none },
        .deleteStagingError, rfl, rfl⟩
  · exact Or.inl
      ⟨{ w with
          stagingPresent := false
          archivedCount := w.archivedCount + 1
          source := none },
        .insertLogError, rfl, rfl⟩
  · exact Or.inr rfl

/-- Characterisation of a whole invocation: it ends in the exception
handler (applied to a world with the input log), in a logged skip, or
in a logged success; only the handler counts a failure-log attempt, and
the TRUE path is entered exactly in the success case or a
handler case flagged `tp = true`. -/
theorem process_file_char (w : World) (o : Oracle) (b f : String) (n : Int) :
    (∃ (w' : World) (e : PipelineError) (tp : Bool), w'.log = w.log ∧
      process_file w o b f n = failRun w' o b f n tp e) ∨
    ((process_file w o b f n).outcome = .skipped ∧
      (process_file w o b f n).failedLogAttempts = 0 ∧
      (process_file w o b f n).tookProcessingPath = false) ∨
    (∃ k, (process_file w o b f n).outcome = .success k ∧
      (process_file w o b f n).failedLogAttempts = 0 ∧
      (process_file w o b f n).tookProcessingPath = true) := by
  unfold process_file
  cases hws : w.source with
  | none => exact Or.inl ⟨w, .notFound, false, rfl, rfl⟩
  | some src =>
    dsimp only
    split_ifs with hd hil
    · exact Or.inl ⟨w, .insertLogError, false, rfl, rfl⟩
    · exact Or.inr (Or.inl ⟨rfl, rfl, rfl⟩)
    · rcases run_processing_char w o b f n src (mkMetadata b f src) with
        ⟨w', e, hlog, heq⟩ | heq
      · exact Or.inl ⟨w', e, true, hlog, heq⟩
      · exact Or.inr (Or.inr ⟨src.rows, by rw [heq], by rw [heq], by rw [heq]⟩)

/-- The TRUE path always reports having been entered. -/
theorem run_processing_tp (w : World) (o : Oracle) (b f : String) (n : Int)
    (src : SourceMeta) (md : FileMetadata) :
    (run_processing w o b f n src md).tookProcessingPath = true := by
  rcases run_processing_char w o b f n src md with ⟨w', e, _, heq⟩ | heq
  · rw [heq]
    rfl
  · rw [heq]

/-- Whether an invocation enters the TRUE path is exactly the
specification's trigger, evaluated on the present source object;
a missing source never enters it. -/
theorem process_file_tp_eq (w : World) (o : Oracle) (b f : String) (n : Int) :
    (process_file w o b f n).tookProcessingPath =
      (match w.source with
        | none => false
        | some src => reprocess_trigger w.log (mkMetadata b f src)) := by
  unfold process_file
  cases hws : w.source with
  | none => rfl
  | some src =>
    dsimp only
    cases htr : reprocess_trigger w.log (mkMetadata b f src) with
    | false =>
      have hd : (should_process_file (mkMetadata b f src)
          (check_file_in_log w.log (mkMetadata b f src).full_path)).1 = false := by
        rw [should_process_fst_eq_trigger, htr]
      rw [if_pos hd]
      split_ifs <;> rfl
    | true =>
      have hd : (should_process_file (mkMetadata b f src)
          (check_file_in_log w.log (mkMetadata b f src).full_path)).1 = true := by
        rw [should_process_fst_eq_trigger, htr]
      rw [if_neg (by simp [hd])]
      exact run_processing_tp w o b f n src (mkMetadata b f src)

/-- C1: an invocation enters the processing path exactly when the
source object exists and either no log entry exists for its path or
the source's last-modified timestamp is strictly newer than the most
recent entry's; and whenever the source exists, the trigger is false
and the skip-log write succeeds, the run ends as a logged skip. -/
theorem c1_processing_path_iff_trigger :
    ∀ (w : World) (o : Oracle) (b f : String) (n : Int),
      ((process_file w o b f n).tookProcessingPath = true ↔
        ∃ src, w.source = some src ∧
          reprocess_trigger w.log (mkMetadata b f src) = true) ∧
      (∀ src : SourceMeta, w.source = some src →
        reprocess_trigger w.log (mkMetadata b f src) = false →
        o.insertLogFails = false →
        (process_file w o b f n).outcome = .skipped) := by
  intro w o b f n
  constructor
  · constructor
    · intro h
      rw [process_file_tp_eq] at h
      cases hws : w.source with
      | none => rw [hws] at h; exact absurd h (by simp)
      | some src =>
        rw [hws] at h
        exact ⟨src, rfl, h⟩
    · rintro ⟨src, hws, htr⟩
      rw [process_file_tp_eq, hws]
      exact htr
  · intro src hws htr hil
    unfold process_file
    rw [hws]
    dsimp only
    have hd : (should_process_file (mkMetadata b f src)
        (check_file_in_log w.log (mkMetadata b f src).full_path)).1 = false := by
      rw [should_process_fst_eq_trigger, htr]
    rw [if_pos hd, if_neg (by simp [hil])]

/-- Witness for `c1_processing_path_iff_trigger`: with an unchanged
source (logged timestamp equal to the source's), the run skips. -/
theorem c1_witness :
    (process_file
      { source := some { last_modified := 100, size := 5, rows := 3 }
        stagingPresent := false
        archivedCount := 0
        log := [{ file_name := "students.csv"
                  file_path := "gs://raw/incoming/students.csv"
                  last_modified_timestamp := 100
                  file_size_bytes := 5
                  rows_processed := 3
                  load_status := "SUCCESS"
                  error_message := none
                  created_at := 150 }] }
      oracleAllOk "raw" "incoming/students.csv" 300).outcome = .skipped :=
  (c1_processing_path_iff_trigger _ oracleAllOk "raw" "incoming/students.csv" 300).2
    { last_modified := 100, size := 5, rows := 3 } rfl (by decide) rfl

/-- C2: what the code does after a failed run, evaluated concretely.
A warehouse-load failure at wall-clock 200 leaves the source object in
place and records a FAILED row whose `last_modified_timestamp` is 200
(the failure wall clock, not the source's modification time 100); the
next invocation for the same, unchanged source therefore compares 100
against 200, does not enter the processing path, and skips — refuting
the claim that the trigger condition holds again.  Separately, a
failure of the staging-cleanup delete raises after the source was
already deleted, refuting the claim that a failed run always leaves
the source in place. -/
theorem c2_failed_run_retrigger_eval :
    (process_file pipelineWorld0 oracleLoadFail "raw" "incoming/students.csv" 200).outcome =
      .raised .loadError ∧
    (process_file pipelineWorld0 oracleLoadFail "raw" "incoming/students.csv"
      200).world.source = some { last_modified := 100, size := 5, rows := 3 } ∧
    (process_file pipelineWorld0 oracleLoadFail "raw" "incoming/students.csv"
        200).world.log =
      [failedRow "raw" "incoming/students.csv" 200 .loadError] ∧
    (process_file
      (process_file pipelineWorld0 oracleLoadFail "raw" "incoming/students.csv" 200).world
      oracleAllOk "raw" "incoming/students.csv" 300).tookProcessingPath = false ∧
    (process_file
      (process_file pipelineWorld0 oracleLoadFail "raw" "incoming/students.csv" 200).world
      oracleAllOk "raw" "incoming/students.csv" 300).outcome = .skipped ∧
    (process_file pipelineWorld0 oracleStagingDeleteFail "raw" "incoming/students.csv"
      200).outcome = .raised .deleteStagingError ∧
    (process_file pipelineWorld0 oracleStagingDeleteFail "raw" "incoming/students.csv"
      200).world.source = none := by
  decide

/-- The TRUE path's outcome is oblivious to the best-effort
failure-log flag. -/
theorem run_processing_outcome_ignores (w : World) (o : Oracle) (b f : String)
    (n : Int) (src : SourceMeta) (md : FileMetadata) (bl : Bool) :
    (run_processing w (setFailureLog o bl) b f n src md).outcome =
      (run_processing w o b f n src md).outcome := by
  rcases o with ⟨r, st, lo, ar, ds, dstg, il, fl⟩
  by_cases hrs : read_supported f = true
  · simp only [setFailureLog, run_processing, hrs]
    cases r <;> cases st <;> cases lo <;> cases ar <;> cases ds <;> cases dstg <;>
      cases il <;> rfl
  · have hrs' : read_supported f = false := by
      revert hrs
      cases read_supported f <;> simp
    simp only [setFailureLog, run_processing, hrs']
    cases r <;> cases st <;> cases lo <;> cases ar <;> cases ds <;> cases dstg <;>
      cases il <;> rfl

/-- Outcomes are oblivious to the best-effort failure-log flag: the
secondary write's success or failure never masks or changes what the
invocation reports. -/
theorem outcome_ignores_failureLog (w : World) (o : Oracle) (b f : String) (n : Int)
    (bl : Bool) :
    (process_file w (setFailureLog o bl) b f n).outcome =
      (process_file w o b f n).outcome := by
  unfold process_file
  cases hws : w.source with
  | none => rfl
  | some src =>
    dsimp only [setFailureLog]
    by_cases hd : (should_process_file (mkMetadata b f src)
        (check_file_in_log w.log (mkMetadata b f src).full_path)).1 = false
    · rw [if_pos hd, if_pos hd]
      by_cases hil : o.insertLogFails = true
      · rw [if_pos hil, if_pos hil]
        rfl
      · rw [if_neg hil, if_neg hil]
    · rw [if_neg hd, if_neg hd]
      exact run_processing_outcome_ignores w o b f n src (mkMetadata b f src) bl

/-- C3: an invocation raises iff the handler attempted exactly one
FAILED log write (and it never attempts more than one); the outcome —
in particular the re-raised original error — is unchanged whether the
best-effort write succeeds or fails; when it succeeds exactly one
FAILED row for the original error is appended, and when it fails the
log is left untouched (the secondary error is swallowed). -/
theorem c3_failure_handler :
    ∀ (w : World) (o : Oracle) (b f : String) (n : Int),
      ((∃ e, (process_file w o b f n).outcome = .raised e) ↔
        (process_file w o b f n).failedLogAttempts = 1) ∧
      ((process_file w o b f n).failedLogAttempts = 0 ∨
        (process_file w o b f n).failedLogAttempts = 1) ∧
      (∀ bl : Bool, (process_file w (setFailureLog o bl) b f n).outcome =
        (process_file w o b f n).outcome) ∧
      (∀ e : PipelineError, (process_file w o b f n).outcome = .raised e →
        o.failureLogFails = false →
        (process_file w o b f n).world.log = w.log ++ [failedRow b f n e]) ∧
      (∀ e : PipelineError, (process_file w o b f n).outcome = .raised e →
        o.failureLogFails = true →
        (process_file w o b f n).world.log = w.log) := by
  intro w o b f n
  rcases process_file_char w o b f n with ⟨w', e', tp, hlog, heq⟩ | ⟨h1, h2, _⟩ |
    ⟨k, h1, h2, _⟩
  · refine ⟨⟨fun _ => by rw [heq, failRun_attempts], fun _ => ⟨e', by rw [heq]; rfl⟩⟩,
      Or.inr (by rw [heq, failRun_attempts]),
      fun bl => outcome_ignores_failureLog w o b f n bl, ?_, ?_⟩
    · intro e houtcome hfl
      rw [heq, failRun_outcome] at houtcome
      cases houtcome
      rw [heq, failRun_world_log, if_neg (by simp [hfl]), hlog]
    · intro e houtcome hfl
      rw [heq, failRun_outcome] at houtcome
      cases houtcome
      rw [heq, failRun_world_log, if_pos hfl, hlog]
  · refine ⟨⟨fun ⟨e, he⟩ => ?_, fun ha => ?_⟩, Or.inl h2,
      fun bl => outcome_ignores_failureLog w o b f n bl,
      fun e he _ => ?_, fun e he _ => ?_⟩
    · rw [h1] at he; cases he
    · rw [h2] at ha; cases ha
    · rw [h1] at he; cases he
    · rw [h1] at he; cases he
  · refine ⟨⟨fun ⟨e, he⟩ => ?_, fun ha => ?_⟩, Or.inl h2,
      fun bl => outcome_ignores_failureLog w o b f n bl,
      fun e he _ => ?_, fun e he _ => ?_⟩
    · rw [h1] at he; cases he
    · rw [h2] at ha; cases ha
    · rw [h1] at he; cases he
    · rw [h1] at he; cases he

/-- Witness for `c3_failure_handler`: a concrete load failure whose
best-effort write succeeds appends exactly the one FAILED row. -/
theorem c3_witness :
    (process_file pipelineWorld0 oracleLoadFail "raw" "incoming/students.csv"
        200).world.log =
      pipelineWorld0.log ++ [failedRow "raw" "incoming/students.csv" 200 .loadError] :=
  (c3_failure_handler pipelineWorld0 oracleLoadFail "raw" "incoming/students.csv"
    200).2.2.2.1 .loadError (by decide) rfl

/-- Every word `splitWordsAux` emits is nonempty and consists of
non-whitespace characters satisfying the invariant `Q`. -/
theorem splitWordsAux_sound (Q : Char → Prop) :
    ∀ (cs acc : List Char),
      (∀ c ∈ cs, pyWhitespace c = false → Q c) →
      (∀ c ∈ acc, pyWhitespace c = false ∧ Q c) →
      ∀ w ∈ splitWordsAux cs acc, w ≠ [] ∧ ∀ c ∈ w, pyWhitespace c = false ∧ Q c := by
  intro cs
  induction cs with
  | nil =>
    intro acc hcs hacc w hw
    cases acc with
    | nil => simp [splitWordsAux] at hw
    | cons a t =>
      have hw' : w = (a :: t).reverse := by
        simpa [splitWordsAux] using hw
      subst hw'
      refine ⟨by simp, ?_⟩
      intro c hc
      exact hacc c (List.mem_reverse.mp hc)
  | cons c rest ih =>
    intro acc hcs hacc w hw
    by_cases hc : pyWhitespace c = true
    · cases acc with
      | nil =>
        rw [show splitWordsAux (c :: rest) [] = splitWordsAux rest [] by
          simp [splitWordsAux, hc]] at hw
        exact ih []
          (fun d hd hdw => hcs d (List.mem_cons_of_mem _ hd) hdw)
          (by simp) w hw
      | cons a t =>
        rw [show splitWordsAux (c :: rest) (a :: t) =
            (a :: t).reverse :: splitWordsAux rest [] by
          simp [splitWordsAux, hc]] at hw
        rcases List.mem_cons.mp hw with rfl | hw'
        · refine ⟨by simp, ?_⟩
          intro d hd
          exact hacc d (List.mem_reverse.mp hd)
        · exact ih []
            (fun d hd hdw => hcs d (List.mem_cons_of_mem _ hd) hdw)
            (by simp) w hw'
    · have hcf : pyWhitespace c = false := by
        revert hc
        cases pyWhitespace c <;> simp
      rw [show splitWordsAux (c :: rest) acc = splitWordsAux rest (c :: acc) by
        simp [splitWordsAux, hcf]] at hw
      refine ih (c :: acc)
        (fun d hd hdw => hcs d (List.mem_cons_of_mem _ hd) hdw) ?_ w hw
      intro d hd
      rcases List.mem_cons.mp hd with rfl | hd'
      · exact ⟨hcf, hcs d (List.mem_cons_self _ _) hcf⟩
      · exact hacc d hd'

/-- Every word `splitWords` emits is nonempty and made of
non-whitespace characters of the input. -/
theorem splitWords_sound (cs : List Char) :
    ∀ w ∈ splitWords cs, w ≠ [] ∧ ∀ c ∈ w, pyWhitespace c = false ∧ c ∈ cs :=
  splitWordsAux_sound (· ∈ cs) cs [] (fun c hc _ => hc) (by simp)

/-- Every character of a join is the separator space or comes from one
of the words. -/
theorem mem_joinWords :
    ∀ (ws : List (List Char)) (c : Char), c ∈ joinWords ws →
      c = ' ' ∨ ∃ w ∈ ws, c ∈ w := by
  intro ws
  induction ws with
  | nil => intro c hc; simp [joinWords] at hc
  | cons w rest ih =>
    intro c hc
    cases rest with
    | nil => exact Or.inr ⟨w, List.mem_cons_self _ _, hc⟩
    | cons x rest' =>
      have hc' : c ∈ w ++ ' ' :: joinWords (x :: rest') := hc
      rcases List.mem_append.mp hc' with h1 | h2
      · exact Or.inr ⟨w, List.mem_cons_self _ _, h1⟩
      · rcases List.mem_cons.mp h2 with rfl | h3
        · exact Or.inl rfl
        · rcases ih c h3 with h | ⟨w', hw', hcw'⟩
          · exact Or.inl h
          · exact Or.inr ⟨w', List.mem_cons_of_mem _ hw', hcw'⟩

/-- Prepending a character preserves `noDoubleWs` when the character or
the head of the tail is not whitespace. -/
theorem noDoubleWs_cons (a : Char) (t : List Char)
    (hhead : noWsOpt t.head? = true ∨ pyWhitespace a = false)
    (ht : noDoubleWs t = true) : noDoubleWs (a :: t) = true := by
  cases t with
  | nil => rfl
  | cons b r =>
    show (!(pyWhitespace a && pyWhitespace b) && noDoubleWs (b :: r)) = true
    rcases hhead with h | h
    · have hb : pyWhitespace b = false := by simpa [noWsOpt] using h
      simp [hb, ht]
    · simp [h, ht]

/-- A list of non-whitespace characters has no double whitespace. -/
theorem noDoubleWs_of_all (l : List Char)
    (h : ∀ c ∈ l, pyWhitespace c = false) : noDoubleWs l = true := by
  induction l with
  | nil => rfl
  | cons a t ih =>
    exact noDoubleWs_cons a t (Or.inr (h a (List.mem_cons_self _ _)))
      (ih fun c hc => h c (List.mem_cons_of_mem _ hc))

/-- Prepending non-whitespace characters preserves `noDoubleWs`. -/
theorem noDoubleWs_append (l₁ l₂ : List Char)
    (h₁ : ∀ c ∈ l₁, pyWhitespace c = false)
    (h₂ : noDoubleWs l₂ = true) : noDoubleWs (l₁ ++ l₂) = true := by
  induction l₁ with
  | nil => simpa using h₂
  | cons a t ih =>
    exact noDoubleWs_cons a (t ++ l₂) (Or.inr (h₁ a (List.mem_cons_self _ _)))
      (ih fun c hc => h₁ c (List.mem_cons_of_mem _ hc))

/-- A join of nonempty words is nonempty. -/
theorem joinWords_ne_nil (ws : List (List Char)) (h0 : ws ≠ [])
    (h : ∀ w ∈ ws, w ≠ []) : joinWords ws ≠ [] := by
  cases ws with
  | nil => exact absurd rfl h0
  | cons w rest =>
    cases rest with
    | nil => exact h w (List.mem_cons_self _ _)
    | cons x r =>
      show w ++ ' ' :: joinWords (x :: r) ≠ []
      simp

/-- The first character of a join of nonempty whitespace-free words is
not whitespace. -/
theorem head_joinWords_noWs (ws : List (List Char))
    (h : ∀ w ∈ ws, w ≠ [] ∧ ∀ c ∈ w, pyWhitespace c = false) :
    noWsOpt (joinWords ws).head? = true := by
  cases ws with
  | nil => rfl
  | cons w rest =>
    have hw := h w (List.mem_cons_self _ _)
    cases rest with
    | nil =>
      cases w with
      | nil => exact absurd rfl hw.1
      | cons c t =>
        simpa [joinWords, noWsOpt] using hw.2 c (List.mem_cons_self _ _)
    | cons x r =>
      cases w with
      | nil => exact absurd rfl hw.1
      | cons c t =>
        simpa [joinWords, noWsOpt] using hw.2 c (List.mem_cons_self _ _)

/-- The last character of a join of nonempty whitespace-free words is
not whitespace. -/
theorem getLast_joinWords_noWs (ws : List (List Char))
    (h : ∀ w ∈ ws, w ≠ [] ∧ ∀ c ∈ w, pyWhitespace c = false) :
    noWsOpt (joinWords ws).getLast? = true := by
  induction ws with
  | nil => rfl
  | cons w rest ih =>
    have hw := h w (List.mem_cons_self _ _)
    cases rest with
    | nil =>
      show noWsOpt w.getLast? = true
      rw [← List.head?_reverse]
      cases hrev : w.reverse with
      | nil =>
        exact absurd (List.reverse_eq_nil_iff.mp hrev) hw.1
      | cons c t =>
        have hcw : c ∈ w := by
          rw [← List.mem_reverse, hrev]
          exact List.mem_cons_self _ _
        simpa [noWsOpt] using hw.2 c hcw
    | cons x r =>
      have hrest : ∀ w' ∈ x :: r, w' ≠ [] ∧ ∀ c ∈ w', pyWhitespace c = false :=
        fun w' hw' => h w' (List.mem_cons_of_mem _ hw')
      have hne : joinWords (x :: r) ≠ [] :=
        joinWords_ne_nil _ (by simp) fun w' hw' => (hrest w' hw').1
      have heq : joinWords (w :: x :: r) = (w ++ [' ']) ++ joinWords (x :: r) := by
        show w ++ ' ' :: joinWords (x :: r) = (w ++ [' ']) ++ joinWords (x :: r)
        simp
      rw [heq, List.getLast?_append_of_ne_nil _ hne]
      exact ih hrest

/-- A join of nonempty whitespace-free words has no two consecutive
whitespace characters. -/
theorem noDoubleWs_joinWords (ws : List (List Char))
    (h : ∀ w ∈ ws, w ≠ [] ∧ ∀ c ∈ w, pyWhitespace c = false) :
    noDoubleWs (joinWords ws) = true := by
  induction ws with
  | nil => rfl
  | cons w rest ih =>
    have hw := h w (List.mem_cons_self _ _)
    cases rest with
    | nil => exact noDoubleWs_of_all w hw.2
    | cons x r =>
      have hrest : ∀ w' ∈ x :: r, w' ≠ [] ∧ ∀ c ∈ w', pyWhitespace c = false :=
        fun w' hw' => h w' (List.mem_cons_of_mem _ hw')
      show noDoubleWs (w ++ ' ' :: joinWords (x :: r)) = true
      apply noDoubleWs_append _ _ hw.2
      exact noDoubleWs_cons _ _ (Or.inl (head_joinWords_noWs _ hrest)) (ih hrest)

/-- Dropping leading whitespace is the identity when the head already fails the
predicate. -/
theorem dropWhile_pyWs_eq_self (l : List Char) (h : noWsOpt l.head? = true) :
    l.dropWhile pyWhitespace = l := by
  cases l with
  | nil => rfl
  | cons c t =>
    have hc : pyWhitespace c = false := by simpa [noWsOpt] using h
    simp [List.dropWhile_cons, hc]

/-- Stripping is the identity on a list with non-whitespace ends. -/
theorem stripWs_eq_self (l : List Char) (h1 : noWsOpt l.head? = true)
    (h2 : noWsOpt l.getLast? = true) : stripWs l = l := by
  unfold stripWs
  rw [dropWhile_pyWs_eq_self l h1]
  rw [dropWhile_pyWs_eq_self l.reverse (by rw [List.head?_reverse]; exact h2)]
  exact List.reverse_reverse l

/-- A kept character that is not whitespace lies in the promised output
alphabet. -/
theorem allowed_not_ws_cleanOut (c : Char) (h1 : allowedChar c = true)
    (h2 : pyWhitespace c = false) : cleanOutChar c = true := by
  unfold allowedChar at h1
  rw [h2] at h1
  unfold cleanOutChar
  simp only [Bool.or_eq_true] at h1 ⊢
  tauto

/-- The core of `clean_text` emits only the promised alphabet, with no
double whitespace and non-whitespace ends. -/
theorem cleanTextChars_props (cs : List Char) :
    (∀ c ∈ cleanTextChars cs, cleanOutChar c = true) ∧
    noDoubleWs (cleanTextChars cs) = true ∧
    noWsOpt (cleanTextChars cs).head? = true ∧
    noWsOpt (cleanTextChars cs).getLast? = true := by
  have hbase_allowed :
      ∀ c ∈ (cs.filter allowedChar).map underscoreToSpace, allowedChar c = true := by
    intro c hc
    rcases List.mem_map.mp hc with ⟨d, hd, rfl⟩
    have hd' := List.of_mem_filter hd
    unfold underscoreToSpace
    split
    · decide
    · exact hd'
  have hsw := splitWords_sound ((cs.filter allowedChar).map underscoreToSpace)
  have hgood : ∀ w ∈ splitWords ((cs.filter allowedChar).map underscoreToSpace),
      w ≠ [] ∧ ∀ c ∈ w, pyWhitespace c = false :=
    fun w hw => ⟨(hsw w hw).1, fun c hc => ((hsw w hw).2 c hc).1⟩
  have hhead := head_joinWords_noWs _ hgood
  have hlast := getLast_joinWords_noWs _ hgood
  have hstrip : cleanTextChars cs =
      joinWords (splitWords ((cs.filter allowedChar).map underscoreToSpace)) :=
    stripWs_eq_self _ hhead hlast
  refine ⟨?_, ?_, ?_, ?_⟩
  · intro c hc
    rw [hstrip] at hc
    rcases mem_joinWords _ c hc with rfl | ⟨w, hw, hcw⟩
    · decide
    · exact allowed_not_ws_cleanOut c
        (hbase_allowed c ((hsw w hw).2 c hcw).2) ((hsw w hw).2 c hcw).1
  · rw [hstrip]
    exact noDoubleWs_joinWords _ hgood
  · rw [hstrip]
    exact hhead
  · rw [hstrip]
    exact hlast

/-- C5: for every input, the output of `clean_text` contains only ASCII
letters, digits, spaces, commas, periods and hyphens, has no two
consecutive whitespace characters, and has no leading or trailing
whitespace.  (`clean_text` is a total Lean function, so totality is
intrinsic.) -/
theorem c5_clean_text_output_shape :
    ∀ text : Option String,
      ((clean_text text).data.all cleanOutChar = true) ∧
      (noDoubleWs (clean_text text).data = true) ∧
      (noWsOpt (clean_text text).data.head? = true) ∧
      (noWsOpt (clean_text text).data.getLast? = true) := by
  intro text
  cases text with
  | none => exact ⟨rfl, rfl, rfl, rfl⟩
  | some s =>
    unfold clean_text
    dsimp only
    split_ifs with h1 h2
    · exact ⟨rfl, rfl, rfl, rfl⟩
    · exact ⟨rfl, rfl, rfl, rfl⟩
    · have hp := cleanTextChars_props s.data
      refine ⟨?_, hp.2.1, hp.2.2.1, hp.2.2.2⟩
      rw [List.all_eq_true]
      exact fun c hc => hp.1 c hc

end GCPPipeline
